import Mathlib

/-!
# Verification of the shard registry cache (`src/mongo/s/client/shard.cpp`)

Shallow embedding of `StaticShardInfo` (the two-index shard cache), the
`Shard` record, and the `Shard::pick` placement policy, together with proofs
of the spec's testable properties.

External collaborators (the catalog manager's `getAllShards` fetch, the
status probes, the replica-set monitor) are passed in as explicit parameters;
the `ConnectionString` parser and a few accessors that live in headers
outside the excerpted translation unit are modelled from the spec, as marked.
-/

deriving instance DecidableEq for Except

namespace MongoShard

/-- Modelled from the spec: the connection descriptor variant produced by
`ConnectionString` parsing (the parser itself lives outside this translation
unit) — "a raw address string is parsed as a replica-set descriptor if it
matches that syntax, otherwise treated as a single host": a replica-set
string is `setName/host1,host2,...`; anything else is a single host. -/
inductive ConnectionString where
  | master (host : String)
  | rs (setName : String) (servers : List String)
deriving DecidableEq, Repr

/-- Split a character list at every occurrence of `c` (the semantics of
`String.splitOn` with a one-character separator, implemented by structural
recursion). -/
def splitChar (c : Char) : List Char → List (List Char)
  | [] => [[]]
  | x :: xs =>
      let r := splitChar c xs
      if x = c then [] :: r
      else
        match r with
        | [] => [[x]]
        | y :: ys => (x :: y) :: ys

/-- `String.splitOn` with a one-character separator. -/
def splitOnChar (c : Char) (s : String) : List String :=
  (splitChar c s.data).map (fun l => String.mk l)

/-- Modelled from the spec: `ConnectionString::parse`. Fails (`none`, the
ParseError case) on the empty string and on malformed replica-set syntax
(missing set name, missing or empty member hosts, more than one `/`). -/
def parseConnString (s : String) : Option ConnectionString :=
  if s = "" then none
  else
    match splitOnChar '/' s with
    | [host] => some (ConnectionString.master host)
    | [setName, hosts] =>
        if setName = "" then none
        else if hosts = "" then none
        else
          let servers := splitOnChar ',' hosts
          if servers.any (fun h => h = "") then none
          else some (ConnectionString.rs setName servers)
    | _ => none

/-- The `Shard` value entity: `_name`, `_addr` (raw address string),
`_cs` (parsed connection string, `none` = default/INVALID), `_maxSizeMB`,
`_isDraining` — fields of `class Shard` as constructed in `shard.cpp`. -/
structure Shard where
  name : String
  addr : String
  cs : Option ConnectionString
  maxSizeMB : Int
  isDraining : Bool
deriving DecidableEq, Repr

/-- `Shard::Shard()` — the default constructor: empty name and address,
default (invalid) connection string. `Shard::EMPTY` is this value (per the
spec, the EMPTY sentinel has empty name and is the explicit "no shard"
result). -/
def Shard.EMPTY : Shard :=
  { name := "", addr := "", cs := none, maxSizeMB := 0, isDraining := false }

/-- `Shard::Shard(name, addr, maxSizeMB, isDraining)` followed by
`_setAddr`: `_cs` is parsed from `addr` when `addr` is non-empty. -/
def Shard.make (name addr : String) (maxSizeMB : Int) (isDraining : Bool) : Shard :=
  { name := name
    addr := addr
    cs := if addr = "" then none else parseConnString addr
    maxSizeMB := maxSizeMB
    isDraining := isDraining }

/-- Modelled from the spec: `Shard::getConnString()` (header accessor) —
the full connection string of a record is its address string. -/
def Shard.getConnString (s : Shard) : String := s.addr

/-- A raw shard descriptor from the authoritative config source
(`ShardType` of `type_shard.h`, outside this translation unit): name, host
connection string, max size, draining flag. -/
structure ShardType where
  name : String
  host : String
  maxSize : Int
  draining : Bool
deriving DecidableEq, Repr

/-- Modelled from the spec: `ShardType::validate()` — "each record is
validated (name non-empty, descriptor well-formed) before acceptance". -/
def ShardType.validate (sd : ShardType) : Bool :=
  sd.name ≠ "" && (parseConnString sd.host).isSome

/-- The `Shard` record built from a validated raw descriptor in
`StaticShardInfo::reload`. -/
def recShard (sd : ShardType) : Shard :=
  Shard.make sd.name sd.host sd.maxSize sd.draining

/-- The error taxonomy raised by the excerpted code (each a `massert` /
`uassert` that is fatal to the caller). -/
inductive Err where
  /-- `massert(13632, "couldn't get updated shard list from config server")`,
  and probe/command failures — the spec's TransportError. -/
  | transport
  /-- `uassertStatusOK(shardData.validate())` — the spec's ValidationError. -/
  | validation
  /-- `uassert(18642, "Error parsing connection string")` — ParseError. -/
  | parse
  /-- `massert(13129, "can't find shard for: ...")` — the spec's
  ConsistencyError: still absent after a fresh reload. -/
  | notFoundFatal
deriving DecidableEq, Repr

/-! ## The two lookup tables (`std::map<string, ShardPtr>`)

Modelled as association lists ordered by key, mirroring `std::map`'s
key-ordered iteration; `mapInsert` is `operator[]` assignment
(insert-or-overwrite), `mapFind` is `find`. -/

/-- Lexicographic strict ordering on character lists (the `std::string`
comparison that orders a `std::map<string, ...>`). -/
def charListLt : List Char → List Char → Bool
  | [], [] => false
  | [], _ :: _ => true
  | _ :: _, [] => false
  | a :: as, b :: bs =>
      if a.toNat < b.toNat then true
      else if b.toNat < a.toNat then false
      else charListLt as bs

/-- Lexicographic strict ordering on strings. -/
def strLt (a b : String) : Bool := charListLt a.data b.data

/-- `std::map::find`: the value bound to `k`, if any. -/
def mapFind (m : List (String × Shard)) (k : String) : Option Shard :=
  match m with
  | [] => none
  | (k', v) :: rest => if k' = k then some v else mapFind rest k

/-- `map[k] = v`: insert or overwrite, keeping the list ordered by key. -/
def mapInsert (k : String) (v : Shard) : List (String × Shard) → List (String × Shard)
  | [] => [(k, v)]
  | (k', v') :: rest =>
      if strLt k k' then (k, v) :: (k', v') :: rest
      else if k = k' then (k, v) :: rest
      else (k', v') :: mapInsert k v rest

/-- The member-host installation loop of `_installHost`:
`for (i...) _lookup[servers[i].toString()] = s`. -/
def insertMany (ks : List String) (v : Shard) (m : List (String × Shard)) :
    List (String × Shard) :=
  ks.foldl (fun acc k => mapInsert k v acc) m

/-- The cache state of `StaticShardInfo`: `_lookup` (shard name, member
hosts and connection strings to records) and `_rsLookup` (replica-set name
to records). -/
structure StaticShardInfo where
  lookup : List (String × Shard)
  rsLookup : List (String × Shard)
deriving DecidableEq, Repr

/-- The empty cache. -/
def StaticShardInfo.empty : StaticShardInfo := { lookup := [], rsLookup := [] }

/-- `StaticShardInfo::_installHost(host, s)`: bind the raw host string in
`_lookup`; if the connection string is a replica set, bind the set name in
`_rsLookup` (when non-empty) and each member host string in `_lookup`. -/
def StaticShardInfo.installHost (host : String) (s : Shard)
    (st : StaticShardInfo) : StaticShardInfo :=
  let st1 : StaticShardInfo := { st with lookup := mapInsert host s st.lookup }
  match s.cs with
  | some (ConnectionString.rs setName servers) =>
      let st2 : StaticShardInfo :=
        if setName ≠ "" then { st1 with rsLookup := mapInsert setName s st1.rsLookup }
        else st1
      { st2 with lookup := insertMany servers s st2.lookup }
  | _ => st1

/-- One iteration of the `reload` rebuild loop, after validation: construct
the record, bind its name, then install its host aliases. -/
def installRecord (st : StaticShardInfo) (sd : ShardType) : StaticShardInfo :=
  let shard := recShard sd
  StaticShardInfo.installHost sd.host shard
    { st with lookup := mapInsert sd.name shard st.lookup }

/-- The destructive clear at the start of `reload`: drop every `_lookup`
entry except the `"config"` binding (when present) and clear `_rsLookup`. -/
def clearKeepConfig (st : StaticShardInfo) : StaticShardInfo :=
  match mapFind st.lookup "config" with
  | some c => { lookup := [("config", c)], rsLookup := [] }
  | none => { lookup := [], rsLookup := [] }

/-- The rebuild loop of `reload`: validate each raw descriptor
(`uassertStatusOK` — a failure aborts with the state as mutated so far),
then install it. -/
def reloadLoop : List ShardType → StaticShardInfo → StaticShardInfo × Option Err
  | [], st => (st, none)
  | sd :: rest, st =>
      if sd.validate then reloadLoop rest (installRecord st sd)
      else (st, some Err.validation)

/-- `StaticShardInfo::reload()`, with the catalog manager's answer passed in
(`none` = transport failure of `getAllShards`, which trips
`massert(13632, ...)` before any mutation). Returns the post-call cache
state together with the error, if any, that propagated to the caller. -/
def StaticShardInfo.reload (st : StaticShardInfo)
    (fetched : Option (List ShardType)) : StaticShardInfo × Option Err :=
  match fetched with
  | none => (st, some Err.transport)
  | some shards => reloadLoop shards (clearKeepConfig st)

/-- `StaticShardInfo::find(ident)`: parse the identifier (`uassert(18642)`
on parse failure); a replica-set connection string is looked up in
`_rsLookup` by set name, anything else in `_lookup` by the raw identifier. -/
def StaticShardInfo.find (st : StaticShardInfo) (ident : String) :
    Except Err (Option Shard) :=
  match parseConnString ident with
  | none => Except.error Err.parse
  | some (ConnectionString.rs setName _) => Except.ok (mapFind st.rsLookup setName)
  | some (ConnectionString.master _) => Except.ok (mapFind st.lookup ident)

/-- `StaticShardInfo::findWithRetry(ident)`: `find`; on a miss, `reload()`
once (with `fetched` the authoritative answer) and `find` again; a second
miss trips `massert(13129, ...)`. Returns the record and the post-call
cache state. -/
def StaticShardInfo.findWithRetry (st : StaticShardInfo)
    (fetched : Option (List ShardType)) (ident : String) :
    Except Err (Shard × StaticShardInfo) :=
  match st.find ident with
  | Except.error e => Except.error e
  | Except.ok (some s) => Except.ok (s, st)
  | Except.ok none =>
      let res := st.reload fetched
      match res.2 with
      | some e => Except.error e
      | none =>
          match res.1.find ident with
          | Except.error e => Except.error e
          | Except.ok (some s) => Except.ok (s, res.1)
          | Except.ok none => Except.error Err.notFoundFatal

/-- `StaticShardInfo::lookupRSName(name)`: `_rsLookup` lookup only,
`Shard::EMPTY` on a miss. -/
def StaticShardInfo.lookupRSName (st : StaticShardInfo) (name : String) : Shard :=
  match mapFind st.rsLookup name with
  | some s => s
  | none => Shard.EMPTY

/-- `StaticShardInfo::set(name, s, setName, setAddr)`: incremental upsert —
bind `name` in `_lookup` when `setName`, and install the record's connection
string aliases when `setAddr`. -/
def StaticShardInfo.set (st : StaticShardInfo) (name : String) (s : Shard)
    (setName setAddr : Bool) : StaticShardInfo :=
  let st1 : StaticShardInfo :=
    if setName then { st with lookup := mapInsert name s st.lookup } else st
  if setAddr then st1.installHost s.getConnString s else st1

/-- `StaticShardInfo::remove(name)`: erase from both tables every entry
whose record's name matches. -/
def StaticShardInfo.remove (st : StaticShardInfo) (name : String) : StaticShardInfo :=
  { lookup := st.lookup.filter (fun kv => kv.2.name ≠ name)
    rsLookup := st.rsLookup.filter (fun kv => kv.2.name ≠ name) }

/-- The accumulator loop of `StaticShardInfo::getAllShards`: walk `_lookup`
in key order, skip `"config"` and names already seen. -/
def getAllShardsAux : List (String × Shard) → List String → List Shard
  | [], _ => []
  | (_, s) :: rest, seen =>
      if s.name = "config" then getAllShardsAux rest seen
      else if s.name ∈ seen then getAllShardsAux rest seen
      else s :: getAllShardsAux rest (s.name :: seen)

/-- `StaticShardInfo::getAllShards`: distinct records by name, excluding
`"config"`. -/
def StaticShardInfo.getAllShards (st : StaticShardInfo) : List Shard :=
  getAllShardsAux st.lookup []

/-- `Shard::containsNode(node)`: true when the node equals the record's own
address; otherwise, for a replica-set descriptor, ask the replica-set
monitor (`monitors` : set name to optional membership predicate; `none`
models `ReplicaSetMonitor::get` returning null — warn and return false). -/
def Shard.containsNode (monitors : String → Option (String → Bool))
    (s : Shard) (node : String) : Bool :=
  if s.addr = node then true
  else
    match s.cs with
    | some (ConnectionString.rs setName _) =>
        match monitors setName with
        | none => false
        | some contains => contains node
    | _ => false

/-- `ShardStatus`: a shard snapshot with its live data size and version. -/
structure ShardStatus where
  shard : Shard
  dataSizeBytes : Int
  mongoVersion : String
deriving DecidableEq, Repr

/-- Modelled from the spec: the strict ordering on `ShardStatus`
(`operator<`, declared outside this translation unit) — "lower load wins";
primary key is data size ascending. -/
def statusLt (a b : ShardStatus) : Bool := a.dataSizeBytes < b.dataSizeBytes

/-- `Shard::getStatus()`: probe the shard's connection string for data size
and version (`probe` is the transport collaborator; `none` = the remote
call failed, fatal). -/
def Shard.getStatus (probe : String → Option (Int × String)) (s : Shard) :
    Option ShardStatus :=
  match probe s.getConnString with
  | none => none
  | some (sz, v) => some { shard := s, dataSizeBytes := sz, mongoVersion := v }

/-- The candidate scan of `Shard::pick`: probe every candidate and keep the
status that compares strictly less than the running best. -/
def pickLoop (probe : String → Option (Int × String)) (best : ShardStatus) :
    List Shard → Except Err ShardStatus
  | [] => Except.ok best
  | s :: rest =>
      match s.getStatus probe with
      | none => Except.error Err.transport
      | some t => pickLoop probe (if statusLt t best then t else best) rest

/-- `Shard::pick(current)`: fetch all shards (reloading once, via `fetched`,
when the cache is empty); seed the running best from the first candidate's
probe, overridden by `current`'s probe when `current` is not EMPTY (the
EMPTY comparison is by name, per the spec); scan all candidates; return the
winner. -/
def Shard.pick (st : StaticShardInfo) (fetched : Option (List ShardType))
    (probe : String → Option (Int × String)) (current : Shard) :
    Except Err Shard :=
  let all := st.getAllShards
  let allE : Except Err (List Shard) :=
    if all.isEmpty then
      let res := st.reload fetched
      match res.2 with
      | some e => Except.error e
      | none => Except.ok res.1.getAllShards
    else Except.ok all
  match allE with
  | Except.error e => Except.error e
  | Except.ok [] => Except.ok Shard.EMPTY
  | Except.ok (a0 :: rest) =>
      match a0.getStatus probe with
      | none => Except.error Err.transport
      | some b0 =>
          let seeded : Except Err ShardStatus :=
            if current.name ≠ "" then
              match current.getStatus probe with
              | none => Except.error Err.transport
              | some b => Except.ok b
            else Except.ok b0
          match seeded with
          | Except.error e => Except.error e
          | Except.ok best =>
              match pickLoop probe best (a0 :: rest) with
              | Except.error e => Except.error e
              | Except.ok w => Except.ok w.shard

/-! ## Derived key sets

The aliases a raw descriptor installs during `reload`: its name, its host
connection string, and (for a replica set) each member host in `_lookup`,
plus the set name in `_rsLookup`. -/

/-- The member hosts of a descriptor whose host string is a replica-set
connection string (empty otherwise). -/
def memberHosts (sd : ShardType) : List String :=
  match parseConnString sd.host with
  | some (ConnectionString.rs _ servers) => servers
  | _ => []

/-- Every `_lookup` key written when `sd` is installed by `reload`. -/
def lookupKeys (sd : ShardType) : List String :=
  sd.name :: sd.host :: memberHosts sd

/-- The `_rsLookup` key written when `sd` is installed, if any. -/
def rsNameOf (sd : ShardType) : Option String :=
  match parseConnString sd.host with
  | some (ConnectionString.rs sn _) => some sn
  | _ => none

/-- `sd` claims no alias key of `tl`'s: none of `sd`'s `_lookup` keys is a
`_lookup` key of `tl`, and their replica-set names differ. -/
def keysDisjB (sd tl : ShardType) : Bool :=
  (lookupKeys sd).all (fun k => !((lookupKeys tl).contains k)) &&
    (match rsNameOf sd, rsNameOf tl with
     | some x, some y => x ≠ y
     | _, _ => true)

/-- Earlier descriptors' alias keys are never rewritten by later ones. -/
def pairwiseDisjB : List ShardType → Bool
  | [] => true
  | sd :: rest => rest.all (fun tl => keysDisjB sd tl) && pairwiseDisjB rest

/-! ## Association-map lemmas -/

theorem mapFind_insert_self (m : List (String × Shard)) (k : String) (v : Shard) :
    mapFind (mapInsert k v m) k = some v := by
  induction m with
  | nil => simp [mapInsert, mapFind]
  | cons kv rest ih =>
      obtain ⟨k', v'⟩ := kv
      by_cases hlt : strLt k k'
      · simp only [mapInsert]
        rw [if_pos hlt, mapFind, if_pos rfl]
      · by_cases heq : k = k'
        · simp only [mapInsert]
          rw [if_neg hlt, if_pos heq, mapFind, if_pos rfl]
        · simp only [mapInsert]
          rw [if_neg hlt, if_neg heq, mapFind, if_neg (Ne.symm heq)]
          exact ih

theorem mapFind_insert_ne (m : List (String × Shard)) (k k' : String) (v : Shard)
    (h : k ≠ k') : mapFind (mapInsert k v m) k' = mapFind m k' := by
  induction m with
  | nil =>
      simp only [mapInsert, mapFind]
      rw [if_neg h]
  | cons kv rest ih =>
      obtain ⟨k₀, v₀⟩ := kv
      by_cases hlt : strLt k k₀
      · simp only [mapInsert]
        rw [if_pos hlt, mapFind, if_neg h]
      · by_cases heq : k = k₀
        · simp only [mapInsert]
          rw [if_neg hlt, if_pos heq, mapFind, mapFind, if_neg h,
            if_neg (fun hh => h (heq.trans hh))]
        · simp only [mapInsert]
          rw [if_neg hlt, if_neg heq, mapFind, mapFind]
          by_cases h₀ : k₀ = k'
          · rw [if_pos h₀, if_pos h₀]
          · rw [if_neg h₀, if_neg h₀]
            exact ih

theorem mapFind_insertMany_not_mem (ks : List String) (v : Shard)
    (m : List (String × Shard)) (k : String) (h : k ∉ ks) :
    mapFind (insertMany ks v m) k = mapFind m k := by
  induction ks generalizing m with
  | nil => rfl
  | cons a rest ih =>
      have ha : a ≠ k := fun hc => h (hc ▸ List.mem_cons_self a rest)
      have hb : k ∉ rest := fun hc => h (List.mem_cons_of_mem a hc)
      calc mapFind (insertMany (a :: rest) v m) k
          = mapFind (insertMany rest v (mapInsert a v m)) k := rfl
        _ = mapFind (mapInsert a v m) k := ih _ hb
        _ = mapFind m k := mapFind_insert_ne _ _ _ _ ha

theorem mapFind_insertMany_mem (ks : List String) (v : Shard)
    (m : List (String × Shard)) (k : String) (h : k ∈ ks) :
    mapFind (insertMany ks v m) k = some v := by
  induction ks generalizing m with
  | nil => cases h
  | cons k₀ rest ih =>
      rcases List.mem_cons.mp h with h₀ | h₀
      · subst h₀
        by_cases hr : k ∈ rest
        · exact ih _ hr
        · calc mapFind (insertMany (k :: rest) v m) k
              = mapFind (insertMany rest v (mapInsert k v m)) k := rfl
            _ = mapFind (mapInsert k v m) k := mapFind_insertMany_not_mem rest v _ k hr
            _ = some v := mapFind_insert_self _ _ _
      · exact ih _ h₀

theorem mapFind_eq_none_of_not_mem_keys (m : List (String × Shard)) (k : String)
    (h : k ∉ m.map Prod.fst) : mapFind m k = none := by
  induction m with
  | nil => rfl
  | cons kv rest ih =>
      obtain ⟨k', v'⟩ := kv
      have hk : k' ≠ k := by
        intro hc; exact h (by simp [hc])
      simp only [mapFind, hk, if_false]
      exact ih (fun hc => h (by simp [hc]))

theorem mapFind_filter_some (m : List (String × Shard))
    (p : String × Shard → Bool) (k : String) (v : Shard)
    (h : mapFind (m.filter p) k = some v) : p (k, v) = true := by
  induction m with
  | nil => simp [mapFind] at h
  | cons kv rest ih =>
      obtain ⟨k', v'⟩ := kv
      by_cases hp : p (k', v')
      · rw [List.filter_cons_of_pos hp] at h
        by_cases hk : k' = k
        · subst hk
          simp [mapFind] at h
          exact h ▸ hp
        · rw [mapFind, if_neg hk] at h
          exact ih h
      · rw [List.filter_cons_of_neg (by simpa using hp)] at h
        exact ih h

theorem mapFind_filter_of_pos (m : List (String × Shard))
    (p : String × Shard → Bool) (k : String) (v : Shard)
    (hfind : mapFind m k = some v) (hp : p (k, v) = true) :
    mapFind (m.filter p) k = some v := by
  induction m with
  | nil => simp [mapFind] at hfind
  | cons kv rest ih =>
      obtain ⟨k', v'⟩ := kv
      by_cases hk : k' = k
      · subst hk
        rw [mapFind, if_pos rfl] at hfind
        injection hfind with hv; subst hv
        rw [List.filter_cons_of_pos hp, mapFind, if_pos rfl]
      · rw [mapFind, if_neg hk] at hfind
        by_cases hp' : p (k', v')
        · rw [List.filter_cons_of_pos hp', mapFind, if_neg hk]
          exact ih hfind
        · rw [List.filter_cons_of_neg (by simpa using hp')]
          exact ih hfind

theorem mapFind_filter_none (m : List (String × Shard))
    (p : String × Shard → Bool) (k : String)
    (h : mapFind m k = none) : mapFind (m.filter p) k = none := by
  induction m with
  | nil => simp [mapFind]
  | cons kv rest ih =>
      obtain ⟨k', v'⟩ := kv
      by_cases hk : k' = k
      · subst hk; rw [mapFind, if_pos rfl] at h; cases h
      · rw [mapFind, if_neg hk] at h
        by_cases hp' : p (k', v')
        · rw [List.filter_cons_of_pos hp', mapFind, if_neg hk]
          exact ih h
        · rw [List.filter_cons_of_neg (by simpa using hp')]
          exact ih h

theorem mapFind_filter_of_neg (m : List (String × Shard))
    (p : String × Shard → Bool) (k : String) (v : Shard)
    (hnd : (m.map Prod.fst).Nodup)
    (hfind : mapFind m k = some v) (hp : p (k, v) = false) :
    mapFind (m.filter p) k = none := by
  induction m with
  | nil => simp [mapFind] at hfind
  | cons kv rest ih =>
      obtain ⟨k', v'⟩ := kv
      rw [List.map_cons, List.nodup_cons] at hnd
      by_cases hk : k' = k
      · subst hk
        rw [mapFind, if_pos rfl] at hfind
        injection hfind with hv; subst hv
        rw [List.filter_cons_of_neg (by simpa using hp)]
        exact mapFind_filter_none _ _ _
          (mapFind_eq_none_of_not_mem_keys _ _ hnd.1)
      · rw [mapFind, if_neg hk] at hfind
        by_cases hp' : p (k', v')
        · rw [List.filter_cons_of_pos hp', mapFind, if_neg hk]
          exact ih hnd.2 hfind
        · rw [List.filter_cons_of_neg (by simpa using hp')]
          exact ih hnd.2 hfind

/-! ## Parse and validation facts -/

theorem make_cs (name addr : String) (msz : Int) (dr : Bool) :
    (Shard.make name addr msz dr).cs = parseConnString addr := by
  by_cases h : addr = ""
  · subst h; simp [Shard.make, parseConnString]
  · simp [Shard.make, h]

theorem validate_facts {sd : ShardType} (h : sd.validate = true) :
    sd.name ≠ "" ∧ ∃ c, parseConnString sd.host = some c := by
  unfold ShardType.validate at h
  rw [Bool.and_eq_true, decide_eq_true_eq, Option.isSome_iff_exists] at h
  exact h

theorem parse_rs_setName_ne {s sn : String} {srv : List String}
    (h : parseConnString s = some (ConnectionString.rs sn srv)) : sn ≠ "" := by
  unfold parseConnString at h
  by_cases hs : s = ""
  · rw [if_pos hs] at h; exact Option.noConfusion h
  · rw [if_neg hs] at h
    cases hsplit : splitOnChar '/' s with
    | nil => rw [hsplit] at h; simp at h
    | cons a t =>
        cases t with
        | nil => rw [hsplit] at h; simp at h
        | cons b t2 =>
            cases t2 with
            | cons c t3 => rw [hsplit] at h; simp at h
            | nil =>
                rw [hsplit] at h
                dsimp only at h
                by_cases ha : a = ""
                · rw [if_pos ha] at h; exact Option.noConfusion h
                · rw [if_neg ha] at h
                  by_cases hb : b = ""
                  · rw [if_pos hb] at h; exact Option.noConfusion h
                  · rw [if_neg hb] at h
                    by_cases hany :
                        ((splitOnChar ',' b).any fun x => decide (x = "")) = true
                    · rw [if_pos hany] at h; exact Option.noConfusion h
                    · rw [if_neg hany] at h
                      obtain ⟨h1, -⟩ : a = sn ∧ _ := by simpa using h
                      exact h1 ▸ ha

theorem memberHosts_of_rs {sd : ShardType} {sn : String} {srv : List String}
    (hp : parseConnString sd.host = some (ConnectionString.rs sn srv)) :
    memberHosts sd = srv := by
  simp [memberHosts, hp]

theorem memberHosts_of_master {sd : ShardType} {h : String}
    (hp : parseConnString sd.host = some (ConnectionString.master h)) :
    memberHosts sd = [] := by
  simp [memberHosts, hp]

theorem memberHosts_of_none {sd : ShardType}
    (hp : parseConnString sd.host = none) : memberHosts sd = [] := by
  simp [memberHosts, hp]

/-! ## Disjointness extraction -/

theorem keysDisjB_lookup {a b : ShardType} (h : keysDisjB a b = true)
    {k : String} (hk : k ∈ lookupKeys a) : k ∉ lookupKeys b := by
  unfold keysDisjB at h
  rw [Bool.and_eq_true] at h
  have := List.all_eq_true.mp h.1 k hk
  simpa using this

theorem keysDisjB_rs {a b : ShardType} (h : keysDisjB a b = true)
    {x : String} (ha : rsNameOf a = some x) : rsNameOf b ≠ some x := by
  unfold keysDisjB at h
  rw [Bool.and_eq_true] at h
  have h2 := h.2
  rw [ha] at h2
  cases hb : rsNameOf b with
  | none => simp
  | some y =>
      rw [hb] at h2
      simp only [decide_eq_true_eq] at h2
      intro hc
      injection hc with hc
      exact h2 hc.symm

theorem pairwiseDisjB_cons {sd : ShardType} {rest : List ShardType}
    (h : pairwiseDisjB (sd :: rest) = true) :
    (∀ tl ∈ rest, keysDisjB sd tl = true) ∧ pairwiseDisjB rest = true := by
  unfold pairwiseDisjB at h
  rw [Bool.and_eq_true] at h
  exact ⟨List.all_eq_true.mp h.1, h.2⟩

/-! ## Installation lemmas -/

theorem installRecord_lookup_self (st : StaticShardInfo) (sd : ShardType)
    (hval : sd.validate = true) {k : String} (hk : k ∈ lookupKeys sd) :
    mapFind (installRecord st sd).lookup k = some (recShard sd) := by
  obtain ⟨-, c, hp⟩ := validate_facts hval
  have hcs : (recShard sd).cs = parseConnString sd.host := make_cs _ _ _ _
  cases c with
  | master h =>
      have hmem : memberHosts sd = [] := memberHosts_of_master hp
      simp only [installRecord, StaticShardInfo.installHost, hcs, hp]
      rcases List.mem_cons.mp hk with hk₀ | hk₀
      · by_cases hkh : k = sd.host
        · rw [hkh]; exact mapFind_insert_self _ _ _
        · rw [mapFind_insert_ne _ _ _ _ (fun hc => hkh hc.symm), hk₀]
          exact mapFind_insert_self _ _ _
      · rw [hmem] at hk₀
        rcases List.mem_cons.mp hk₀ with hk₁ | hk₁
        · rw [hk₁]; exact mapFind_insert_self _ _ _
        · cases hk₁
  | rs sn srv =>
      have hmem : memberHosts sd = srv := memberHosts_of_rs hp
      have hsn : sn ≠ "" := parse_rs_setName_ne hp
      simp only [installRecord, StaticShardInfo.installHost, hcs, hp, hsn,
        ne_eq, not_false_iff, if_true]
      by_cases hks : k ∈ srv
      · exact mapFind_insertMany_mem _ _ _ _ hks
      · rw [mapFind_insertMany_not_mem _ _ _ _ hks]
        rcases List.mem_cons.mp hk with hk₀ | hk₀
        · by_cases hkh : k = sd.host
          · rw [hkh]; exact mapFind_insert_self _ _ _
          · rw [mapFind_insert_ne _ _ _ _ (fun hc => hkh hc.symm), hk₀]
            exact mapFind_insert_self _ _ _
        · rw [hmem] at hk₀
          rcases List.mem_cons.mp hk₀ with hk₁ | hk₁
          · rw [hk₁]; exact mapFind_insert_self _ _ _
          · exact absurd hk₁ hks

theorem installRecord_rs_self (st : StaticShardInfo) (sd : ShardType)
    {sn : String} (hsn : rsNameOf sd = some sn) :
    mapFind (installRecord st sd).rsLookup sn = some (recShard sd) := by
  unfold rsNameOf at hsn
  split at hsn
  · next sn' srv hp =>
      injection hsn with hsn'
      have hp' : parseConnString sd.host = some (ConnectionString.rs sn srv) := by
        rw [← hsn']; exact hp
      have hcs : (recShard sd).cs = parseConnString sd.host := make_cs _ _ _ _
      have hne : sn ≠ "" := parse_rs_setName_ne hp'
      simp only [installRecord, StaticShardInfo.installHost, hcs, hp', hne,
        ne_eq, not_false_iff, if_true]
      exact mapFind_insert_self _ _ _
  · exact Option.noConfusion hsn

theorem installRecord_frame_lookup (st : StaticShardInfo) (sd : ShardType)
    {k : String} (hk : k ∉ lookupKeys sd) :
    mapFind (installRecord st sd).lookup k = mapFind st.lookup k := by
  have hname : sd.name ≠ k := fun hc => hk (hc ▸ List.mem_cons_self _ _)
  have hhost : sd.host ≠ k := fun hc =>
    hk (hc ▸ List.mem_cons_of_mem _ (List.mem_cons_self _ _))
  have hmem : k ∉ memberHosts sd := fun hc =>
    hk (List.mem_cons_of_mem _ (List.mem_cons_of_mem _ hc))
  have hcs : (recShard sd).cs = parseConnString sd.host := make_cs _ _ _ _
  cases hp : parseConnString sd.host with
  | none =>
      simp only [installRecord, StaticShardInfo.installHost, hcs, hp]
      rw [mapFind_insert_ne _ _ _ _ hhost, mapFind_insert_ne _ _ _ _ hname]
  | some c =>
      cases c with
      | master h =>
          simp only [installRecord, StaticShardInfo.installHost, hcs, hp]
          rw [mapFind_insert_ne _ _ _ _ hhost, mapFind_insert_ne _ _ _ _ hname]
      | rs sn srv =>
          rw [memberHosts_of_rs hp] at hmem
          have hne : sn ≠ "" := parse_rs_setName_ne hp
          simp only [installRecord, StaticShardInfo.installHost, hcs, hp, hne,
            ne_eq, not_false_iff, if_true]
          rw [mapFind_insertMany_not_mem _ _ _ _ hmem,
            mapFind_insert_ne _ _ _ _ hhost, mapFind_insert_ne _ _ _ _ hname]

theorem installRecord_frame_rs (st : StaticShardInfo) (sd : ShardType)
    {sn : String} (hsn : rsNameOf sd ≠ some sn) :
    mapFind (installRecord st sd).rsLookup sn = mapFind st.rsLookup sn := by
  have hcs : (recShard sd).cs = parseConnString sd.host := make_cs _ _ _ _
  cases hp : parseConnString sd.host with
  | none => simp only [installRecord, StaticShardInfo.installHost, hcs, hp]
  | some c =>
      cases c with
      | master h => simp only [installRecord, StaticShardInfo.installHost, hcs, hp]
      | rs sn' srv =>
          have hne : sn' ≠ sn := by
            intro hc
            exact hsn (by rw [rsNameOf, hp, hc])
          have hne' : sn' ≠ "" := parse_rs_setName_ne hp
          simp only [installRecord, StaticShardInfo.installHost, hcs, hp, hne',
            ne_eq, not_false_iff, if_true]
          exact mapFind_insert_ne _ _ _ _ hne

/-! ## Fold-level lemmas about the reload rebuild -/

theorem foldl_frame_lookup (shards : List ShardType) (st : StaticShardInfo)
    {k : String} (h : ∀ sd ∈ shards, k ∉ lookupKeys sd) :
    mapFind (shards.foldl installRecord st).lookup k = mapFind st.lookup k := by
  induction shards generalizing st with
  | nil => rfl
  | cons sd rest ih =>
      calc mapFind ((sd :: rest).foldl installRecord st).lookup k
          = mapFind (rest.foldl installRecord (installRecord st sd)).lookup k := rfl
        _ = mapFind (installRecord st sd).lookup k :=
            ih _ (fun x hx => h x (List.mem_cons_of_mem _ hx))
        _ = mapFind st.lookup k :=
            installRecord_frame_lookup _ _ (h sd (List.mem_cons_self _ _))

theorem foldl_frame_rs (shards : List ShardType) (st : StaticShardInfo)
    {sn : String} (h : ∀ sd ∈ shards, rsNameOf sd ≠ some sn) :
    mapFind (shards.foldl installRecord st).rsLookup sn = mapFind st.rsLookup sn := by
  induction shards generalizing st with
  | nil => rfl
  | cons sd rest ih =>
      calc mapFind ((sd :: rest).foldl installRecord st).rsLookup sn
          = mapFind (rest.foldl installRecord (installRecord st sd)).rsLookup sn := rfl
        _ = mapFind (installRecord st sd).rsLookup sn :=
            ih _ (fun x hx => h x (List.mem_cons_of_mem _ hx))
        _ = mapFind st.rsLookup sn :=
            installRecord_frame_rs _ _ (h sd (List.mem_cons_self _ _))

theorem foldl_lookup_self (shards : List ShardType) (st : StaticShardInfo)
    (hval : ∀ sd ∈ shards, sd.validate = true)
    (hdisj : pairwiseDisjB shards = true)
    {sd : ShardType} (hsd : sd ∈ shards) {k : String} (hk : k ∈ lookupKeys sd) :
    mapFind (shards.foldl installRecord st).lookup k = some (recShard sd) := by
  induction shards generalizing st with
  | nil => cases hsd
  | cons h0 rest ih =>
      obtain ⟨hd1, hd2⟩ := pairwiseDisjB_cons hdisj
      rcases List.mem_cons.mp hsd with h₀ | h₀
      · subst h₀
        calc mapFind ((sd :: rest).foldl installRecord st).lookup k
            = mapFind (rest.foldl installRecord (installRecord st sd)).lookup k := rfl
          _ = mapFind (installRecord st sd).lookup k :=
              foldl_frame_lookup _ _ (fun tl htl => keysDisjB_lookup (hd1 tl htl) hk)
          _ = some (recShard sd) :=
              installRecord_lookup_self _ _ (hval sd (List.mem_cons_self _ _)) hk
      · exact ih _ (fun x hx => hval x (List.mem_cons_of_mem _ hx)) hd2 h₀

theorem foldl_rs_self (shards : List ShardType) (st : StaticShardInfo)
    (hval : ∀ sd ∈ shards, sd.validate = true)
    (hdisj : pairwiseDisjB shards = true)
    {sd : ShardType} (hsd : sd ∈ shards) {sn : String} (hsn : rsNameOf sd = some sn) :
    mapFind (shards.foldl installRecord st).rsLookup sn = some (recShard sd) := by
  induction shards generalizing st with
  | nil => cases hsd
  | cons h0 rest ih =>
      obtain ⟨hd1, hd2⟩ := pairwiseDisjB_cons hdisj
      rcases List.mem_cons.mp hsd with h₀ | h₀
      · subst h₀
        calc mapFind ((sd :: rest).foldl installRecord st).rsLookup sn
            = mapFind (rest.foldl installRecord (installRecord st sd)).rsLookup sn := rfl
          _ = mapFind (installRecord st sd).rsLookup sn :=
              foldl_frame_rs _ _ (fun tl htl => keysDisjB_rs (hd1 tl htl) hsn)
          _ = some (recShard sd) := installRecord_rs_self _ _ hsn
      · exact ih _ (fun x hx => hval x (List.mem_cons_of_mem _ hx)) hd2 h₀

/-! ## The reload loop -/

theorem reloadLoop_all_valid (shards : List ShardType) (st : StaticShardInfo)
    (h : ∀ sd ∈ shards, sd.validate = true) :
    reloadLoop shards st = (shards.foldl installRecord st, none) := by
  induction shards generalizing st with
  | nil => rfl
  | cons sd rest ih =>
      rw [reloadLoop, if_pos (h sd (List.mem_cons_self _ _))]
      exact ih _ (fun x hx => h x (List.mem_cons_of_mem _ hx))

theorem reloadLoop_ok_valid {shards : List ShardType} {st st' : StaticShardInfo}
    (h : reloadLoop shards st = (st', none)) :
    ∀ sd ∈ shards, sd.validate = true := by
  induction shards generalizing st with
  | nil => intro sd hsd; cases hsd
  | cons sd₀ rest ih =>
      intro sd hsd
      rw [reloadLoop] at h
      by_cases hv : sd₀.validate = true
      · rw [if_pos hv] at h
        rcases List.mem_cons.mp hsd with h₀ | h₀
        · exact h₀ ▸ hv
        · exact ih h sd h₀
      · rw [if_neg hv] at h
        injection h with h1 h2
        exact Option.noConfusion h2

theorem reloadLoop_invalid (shards : List ShardType) (st : StaticShardInfo)
    (h : ¬ ∀ sd ∈ shards, sd.validate = true) :
    reloadLoop shards st =
      ((shards.takeWhile (fun sd => sd.validate)).foldl installRecord st,
        some Err.validation) := by
  induction shards generalizing st with
  | nil => exact absurd (fun sd hsd => absurd hsd (List.not_mem_nil sd)) h
  | cons sd₀ rest ih =>
      by_cases hv : sd₀.validate = true
      · have hrest : ¬ ∀ sd ∈ rest, sd.validate = true := by
          intro hall
          exact h (fun sd hsd => by
            rcases List.mem_cons.mp hsd with h₀ | h₀
            · exact h₀ ▸ hv
            · exact hall sd h₀)
        rw [reloadLoop, if_pos hv, List.takeWhile_cons_of_pos hv]
        exact ih _ hrest
      · rw [reloadLoop, if_neg hv,
          List.takeWhile_cons_of_neg (by simpa using hv)]
        rfl

theorem reload_ok {st st' : StaticShardInfo} {shards : List ShardType}
    (h : st.reload (some shards) = (st', none)) :
    st' = shards.foldl installRecord (clearKeepConfig st) ∧
      (∀ sd ∈ shards, sd.validate = true) := by
  rw [StaticShardInfo.reload] at h
  have hval := reloadLoop_ok_valid h
  rw [reloadLoop_all_valid _ _ hval] at h
  injection h with h1 h2
  exact ⟨h1.symm, hval⟩

/-! ## `find` reduction helpers -/

theorem find_eq_lookup {st : StaticShardInfo} {ident h : String}
    (hp : parseConnString ident = some (ConnectionString.master h)) :
    st.find ident = Except.ok (mapFind st.lookup ident) := by
  simp [StaticShardInfo.find, hp]

theorem find_eq_rs {st : StaticShardInfo} {ident sn : String} {srv : List String}
    (hp : parseConnString ident = some (ConnectionString.rs sn srv)) :
    st.find ident = Except.ok (mapFind st.rsLookup sn) := by
  simp [StaticShardInfo.find, hp]

/-! ## Same-value insertion preserves a binding (used for the `"config"`
entry installed by `set`) -/

theorem mapFind_insert_preserve (m : List (String × Shard)) (k k' : String)
    (v : Shard) (h : mapFind m k = some v) :
    mapFind (mapInsert k' v m) k = some v := by
  by_cases hk : k' = k
  · rw [hk]; exact mapFind_insert_self _ _ _
  · rw [mapFind_insert_ne _ _ _ _ hk]; exact h

theorem mapFind_insertMany_preserve (ks : List String) (v : Shard)
    (m : List (String × Shard)) (k : String) (h : mapFind m k = some v) :
    mapFind (insertMany ks v m) k = some v := by
  by_cases hk : k ∈ ks
  · exact mapFind_insertMany_mem _ _ _ _ hk
  · rw [mapFind_insertMany_not_mem _ _ _ _ hk]; exact h

theorem installHost_preserve (host : String) (s : Shard) (st : StaticShardInfo)
    (k : String) (h : mapFind st.lookup k = some s) :
    mapFind (st.installHost host s).lookup k = some s := by
  cases hcs : s.cs with
  | none =>
      simp only [StaticShardInfo.installHost, hcs]
      exact mapFind_insert_preserve _ _ _ _ h
  | some c =>
      cases c with
      | master h0 =>
          simp only [StaticShardInfo.installHost, hcs]
          exact mapFind_insert_preserve _ _ _ _ h
      | rs sn srv =>
          simp only [StaticShardInfo.installHost, hcs]
          by_cases hsn : sn = ""
          · simp only [hsn, ne_eq, not_true_eq_false, if_false]
            exact mapFind_insertMany_preserve _ _ _ _
              (mapFind_insert_preserve _ _ _ _ h)
          · simp only [hsn, ne_eq, not_false_iff, if_true]
            exact mapFind_insertMany_preserve _ _ _ _
              (mapFind_insert_preserve _ _ _ _ h)

theorem set_config_find (st : StaticShardInfo) (C : Shard) :
    mapFind (st.set "config" C true true).lookup "config" = some C := by
  simp only [StaticShardInfo.set, if_true]
  exact installHost_preserve _ _ _ _ (mapFind_insert_self _ _ _)

/-! ## `getAllShards` accumulator -/

theorem getAllShardsAux_spec (m : List (String × Shard)) (seen : List String) :
    (∀ s ∈ getAllShardsAux m seen, s.name ≠ "config" ∧ s.name ∉ seen) ∧
      ((getAllShardsAux m seen).map Shard.name).Nodup := by
  induction m generalizing seen with
  | nil =>
      exact ⟨fun s hs => absurd hs (List.not_mem_nil s), List.nodup_nil⟩
  | cons kv rest ih =>
      obtain ⟨k, s⟩ := kv
      by_cases hc : s.name = "config"
      · simpa [getAllShardsAux, hc] using ih seen
      · by_cases hseen : s.name ∈ seen
        · simpa [getAllShardsAux, hc, hseen] using ih seen
        · have hres : getAllShardsAux ((k, s) :: rest) seen =
              s :: getAllShardsAux rest (s.name :: seen) := by
            simp [getAllShardsAux, hc, hseen]
          rw [hres]
          obtain ⟨ih1, ih2⟩ := ih (s.name :: seen)
          constructor
          · intro x hx
            rcases List.mem_cons.mp hx with hx₀ | hx₀
            · exact hx₀ ▸ ⟨hc, hseen⟩
            · obtain ⟨hxc, hxs⟩ := ih1 x hx₀
              exact ⟨hxc, fun hmem => hxs (List.mem_cons_of_mem _ hmem)⟩
          · rw [List.map_cons, List.nodup_cons]
            refine ⟨?_, ih2⟩
            intro hmem
            obtain ⟨x, hx, hxeq⟩ := List.mem_map.mp hmem
            obtain ⟨-, hxs⟩ := ih1 x hx
            exact hxs (hxeq ▸ List.mem_cons_self _ _)

/-! ## Concrete fixtures used by counterexamples and witnesses -/

/-- A single-host shard descriptor. -/
def wRecA : ShardType := { name := "A", host := "a:1", maxSize := 0, draining := false }

/-- A replica-set shard descriptor (set `rs0`, two members). -/
def wRecB : ShardType :=
  { name := "B", host := "rs0/h1:1,h2:2", maxSize := 10, draining := false }

/-- A small authoritative list fixture. -/
def wShards : List ShardType := [wRecA, wRecB]

/-- The cache after a successful reload of `wShards` into an empty cache. -/
def wSt : StaticShardInfo := (StaticShardInfo.empty.reload (some wShards)).1

/-- A cache holding one installed shard, used as the pre-reload state. -/
def c1Prior : StaticShardInfo :=
  { lookup := [("s1", Shard.make "s1" "h:1" 0 false)], rsLookup := [] }

/-- A raw descriptor failing validation (empty name). -/
def c1Bad : ShardType := { name := "", host := "x:1", maxSize := 0, draining := false }

/-- A config record installed under the reserved `"config"` key. -/
def c3C : Shard := Shard.make "config" "localhost:1" 0 false

/-- A descriptor not named `"config"` whose host string is literally
`"config"`. -/
def c3Hostile : ShardType := { name := "S", host := "config", maxSize := 0, draining := false }

/-- A cache holding only the reserved config entry (and its address alias). -/
def c3Prior : StaticShardInfo := StaticShardInfo.empty.set "config" c3C true true

/-- Shards A and B with single hosts, for the placement example. -/
def c5RecA : ShardType := { name := "A", host := "a:1", maxSize := 0, draining := false }

/-- Shard B of the placement example. -/
def c5RecB : ShardType := { name := "B", host := "b:1", maxSize := 0, draining := false }

/-- The cache of the placement example: exactly shards A and B. -/
def c5St : StaticShardInfo :=
  (StaticShardInfo.empty.reload (some [c5RecA, c5RecB])).1

/-- The record of shard A. -/
def c5ShardA : Shard := Shard.make "A" "a:1" 0 false

/-- The record of shard B. -/
def c5ShardB : Shard := Shard.make "B" "b:1" 0 false

/-- Probe: A reports 100MB, B reports 50MB. -/
def c5ProbeLow : String → Option (Int × String) := fun h =>
  if h = "a:1" then some (104857600, "3.0.0")
  else if h = "b:1" then some (52428800, "3.0.0")
  else none

/-- Probe: A reports 100MB, B reports 150MB. -/
def c5ProbeHigh : String → Option (Int × String) := fun h =>
  if h = "a:1" then some (104857600, "3.0.0")
  else if h = "b:1" then some (157286400, "3.0.0")
  else none

/-- A replica-set monitor registry resolving only `rs0`, whose membership is
exactly `h1:1`. -/
def c9Monitors : String → Option (String → Bool) := fun sn =>
  if sn = "rs0" then some (fun node => node = "h1:1") else none

/-- The reserved config record of the remove test. -/
def c10ConfigShard : Shard := Shard.make "config" "localhost:1" 0 false

/-- A cache holding the reserved config entry. -/
def c10St : StaticShardInfo :=
  StaticShardInfo.empty.set "config" c10ConfigShard true true

/-! ## The claims -/

/-- C1, counterexample: the claim says that when any record fails validation,
reload aborts with both tables exactly as before the call; but validation
runs after the destructive clear, so with one installed shard and an
authoritative list whose record has an empty name, reload raises the
validation error with the tables mutated (the prior entry is gone). -/
theorem C1_counterexample :
    (c1Prior.reload (some [c1Bad])).2 = some Err.validation ∧
      (c1Prior.reload (some [c1Bad])).1 ≠ c1Prior := by decide

/-- C1, amended: a transport failure of the fetch aborts reload with the
cache unchanged; a validation failure aborts reload fatally, but the cache
is left cleared (except the `"config"` entry) with exactly the valid prefix
of the authoritative list installed — not unchanged. A fully valid list
reloads without error. -/
theorem C1_reload_failure_behaviour (st : StaticShardInfo)
    (fetched : Option (List ShardType)) :
    (fetched = none → st.reload fetched = (st, some Err.transport)) ∧
    (∀ shards, fetched = some shards →
      ((∀ sd ∈ shards, sd.validate = true) → (st.reload fetched).2 = none) ∧
      ((¬ ∀ sd ∈ shards, sd.validate = true) →
        st.reload fetched =
          ((shards.takeWhile (fun sd => sd.validate)).foldl installRecord
            (clearKeepConfig st), some Err.validation))) := by
  refine ⟨?_, ?_⟩
  · intro h; subst h; rfl
  · intro shards h
    subst h
    refine ⟨?_, ?_⟩
    · intro hall
      rw [StaticShardInfo.reload, reloadLoop_all_valid _ _ hall]
    · intro hnot
      rw [StaticShardInfo.reload]
      exact reloadLoop_invalid _ _ hnot

/-- C1, witness: the amended theorem applied to the concrete fixture — the
transport failure leaves the cache untouched, and the invalid list leaves
the cleared state with the (empty) valid prefix installed. -/
theorem C1_witness :
    c1Prior.reload none = (c1Prior, some Err.transport) ∧
    c1Prior.reload (some [c1Bad]) =
      ((([c1Bad].takeWhile (fun sd => sd.validate)).foldl installRecord
        (clearKeepConfig c1Prior)), some Err.validation) :=
  ⟨(C1_reload_failure_behaviour c1Prior none).1 rfl,
   ((C1_reload_failure_behaviour c1Prior (some [c1Bad])).2 [c1Bad] rfl).2
     (by decide)⟩

/-- Records sharing the host string `h:1` — both pass validation. -/
def c2RecX : ShardType := { name := "X", host := "h:1", maxSize := 0, draining := false }

/-- The second record with host `h:1`; installed after `c2RecX`. -/
def c2RecY : ShardType := { name := "Y", host := "h:1", maxSize := 0, draining := false }

/-- A valid record whose name contains a `/`, so the name parses as a
replica-set connection string. -/
def c2RecZ : ShardType :=
  { name := "rs1/h5:5", host := "h5:5", maxSize := 0, draining := false }

/-- Two replica-set records sharing the set name `rsX`. -/
def c2RecR1 : ShardType :=
  { name := "R1", host := "rsX/a:1", maxSize := 0, draining := false }

/-- The second record of set `rsX`; installed after `c2RecR1`. -/
def c2RecR2 : ShardType :=
  { name := "R2", host := "rsX/b:1", maxSize := 0, draining := false }

/-- C2, counterexample: the claim quantifies over every set of valid
records installed by a successful reload, but the round-trip fails on three
kinds of such sets. (1) Two valid records with the same host string reload
successfully, yet the later `_lookup[host]` assignment overwrites the
earlier, so `find(X.address)` returns Y's record, not X's. (2) A valid
record whose name contains `/` reloads, but `find(name)` parses the name as
a replica-set string and looks up the rs-table, missing the record. (3) Two
replica-set records with the same set name reload, but the later overwrites
the rs-table binding, so `lookupRSName` and `find(address)` return R2 for
R1's set. -/
theorem C2_counterexample :
    ((StaticShardInfo.empty.reload (some [c2RecX, c2RecY])).2 = none ∧
      (∀ sd ∈ [c2RecX, c2RecY], sd.validate = true) ∧
      (StaticShardInfo.empty.reload (some [c2RecX, c2RecY])).1.find c2RecX.host ≠
        Except.ok (some (recShard c2RecX))) ∧
    ((StaticShardInfo.empty.reload (some [c2RecZ])).2 = none ∧
      c2RecZ.validate = true ∧
      (StaticShardInfo.empty.reload (some [c2RecZ])).1.find c2RecZ.name ≠
        Except.ok (some (recShard c2RecZ))) ∧
    ((StaticShardInfo.empty.reload (some [c2RecR1, c2RecR2])).2 = none ∧
      (∀ sd ∈ [c2RecR1, c2RecR2], sd.validate = true) ∧
      (StaticShardInfo.empty.reload (some [c2RecR1, c2RecR2])).1.lookupRSName
          "rsX" ≠ recShard c2RecR1 ∧
      (StaticShardInfo.empty.reload (some [c2RecR1, c2RecR2])).1.find
          c2RecR1.host ≠ Except.ok (some (recShard c2RecR1))) := by
  decide

/-- C2, amended: reachability round-trip — after a successful reload of an
authoritative list whose records install pairwise-disjoint alias keys
(no shared names, host strings, member hosts, or set names between
records) and whose names and member hosts are plain single-host
identifiers (no `/`), every record is returned by `find` under its name,
its address, and each member host, and by `lookupRSName` under its set
name. -/
theorem C2_reachability_roundtrip (st0 st' : StaticShardInfo)
    (shards : List ShardType)
    (hrel : st0.reload (some shards) = (st', none))
    (hdisj : pairwiseDisjB shards = true)
    (hnames : ∀ sd ∈ shards,
      parseConnString sd.name = some (ConnectionString.master sd.name))
    (hmembers : ∀ sd ∈ shards, ∀ m ∈ memberHosts sd,
      parseConnString m = some (ConnectionString.master m)) :
    ∀ sd ∈ shards,
      st'.find sd.name = Except.ok (some (recShard sd)) ∧
      st'.find sd.host = Except.ok (some (recShard sd)) ∧
      (∀ m ∈ memberHosts sd, st'.find m = Except.ok (some (recShard sd))) ∧
      (∀ sn, rsNameOf sd = some sn → st'.lookupRSName sn = recShard sd) := by
  obtain ⟨hst, hval⟩ := reload_ok hrel
  subst hst
  intro sd hsd
  have hkname : sd.name ∈ lookupKeys sd := List.mem_cons_self _ _
  have hkhost : sd.host ∈ lookupKeys sd :=
    List.mem_cons_of_mem _ (List.mem_cons_self _ _)
  refine ⟨?_, ?_, ?_, ?_⟩
  · rw [find_eq_lookup (hnames sd hsd),
      foldl_lookup_self _ _ hval hdisj hsd hkname]
  · obtain ⟨-, c, hp⟩ := validate_facts (hval sd hsd)
    cases c with
    | master h =>
        rw [find_eq_lookup hp, foldl_lookup_self _ _ hval hdisj hsd hkhost]
    | rs sn srv =>
        have hrs : rsNameOf sd = some sn := by simp [rsNameOf, hp]
        rw [find_eq_rs hp, foldl_rs_self _ _ hval hdisj hsd hrs]
  · intro m hm
    rw [find_eq_lookup (hmembers sd hsd m hm),
      foldl_lookup_self _ _ hval hdisj hsd
        (List.mem_cons_of_mem _ (List.mem_cons_of_mem _ hm))]
  · intro sn hsn
    simp [StaticShardInfo.lookupRSName, foldl_rs_self _ _ hval hdisj hsd hsn]

/-- C2, witness: the round-trip applied to the concrete two-record fixture,
read back for the replica-set record B. -/
theorem C2_witness :
    wSt.find "B" = Except.ok (some (recShard wRecB)) ∧
    wSt.find "rs0/h1:1,h2:2" = Except.ok (some (recShard wRecB)) ∧
    wSt.find "h1:1" = Except.ok (some (recShard wRecB)) ∧
    wSt.lookupRSName "rs0" = recShard wRecB := by
  have h := C2_reachability_roundtrip StaticShardInfo.empty wSt wShards
    (by decide) (by decide) (by decide) (by decide) wRecB (by decide)
  exact ⟨h.1, h.2.1, h.2.2.1 "h1:1" (by decide), h.2.2.2 "rs0" (by decide)⟩

/-- C3, counterexample: the claim restricts the authoritative list only by
record name; a successful reload of a list with no record named `"config"`
— but whose record's host string is literally `"config"` — overwrites the
preserved config entry, so `find("config")` no longer returns C. -/
theorem C3_counterexample :
    (∀ sd ∈ [c3Hostile], sd.name ≠ "config") ∧
    (c3Prior.reload (some [c3Hostile])).2 = none ∧
    (c3Prior.reload (some [c3Hostile])).1.find "config" ≠
      Except.ok (some c3C) := by decide

/-- C3, amended: after `set("config", C)` and a successful reload whose
authoritative list installs no alias key equal to `"config"` (in particular
no record is named `"config"`), `find("config")` still returns C, and the
config binding is the only primary-table entry that survives the
destructive replace: any other key not written by the new records is
absent. -/
theorem C3_config_persistence (st0 : StaticShardInfo) (C : Shard)
    (st' : StaticShardInfo) (shards : List ShardType)
    (hrel : (st0.set "config" C true true).reload (some shards) = (st', none))
    (hns : ∀ sd ∈ shards, "config" ∉ lookupKeys sd) :
    st'.find "config" = Except.ok (some C) ∧
    (∀ k, (∀ sd ∈ shards, k ∉ lookupKeys sd) → k ≠ "config" →
      mapFind st'.lookup k = none) := by
  obtain ⟨hst, hval⟩ := reload_ok hrel
  subst hst
  have hclear : clearKeepConfig (st0.set "config" C true true) =
      { lookup := [("config", C)], rsLookup := [] } := by
    rw [clearKeepConfig, set_config_find]
  constructor
  · have hp : parseConnString "config" =
        some (ConnectionString.master "config") := by decide
    rw [find_eq_lookup hp, foldl_frame_lookup _ _ hns, hclear]
    simp [mapFind]
  · intro k hk hkc
    rw [foldl_frame_lookup _ _ hk, hclear]
    simp [mapFind, Ne.symm hkc]

/-- C3, witness: the amended persistence applied to the concrete fixture —
the config record survives a reload installing shard A, and a key written
by nobody is absent afterwards. -/
theorem C3_witness :
    ((StaticShardInfo.empty.set "config" c3C true true).reload
      (some [wRecA])).1.find "config" = Except.ok (some c3C) ∧
    mapFind ((StaticShardInfo.empty.set "config" c3C true true).reload
      (some [wRecA])).1.lookup "zz:9" = none := by
  have h := C3_config_persistence StaticShardInfo.empty c3C
    ((StaticShardInfo.empty.set "config" c3C true true).reload
      (some [wRecA])).1 [wRecA] (by decide) (by decide)
  exact ⟨h.1, h.2 "zz:9" (by decide) (by decide)⟩

/-- A valid record whose name is shaped like a replica-set connection
string. -/
def c4Rec : ShardType :=
  { name := "rs0/h1:1", host := "h9:9", maxSize := 0, draining := false }

/-- A record whose name `P` collides with the next record's host alias. -/
def c4RecP : ShardType := { name := "P", host := "p:1", maxSize := 0, draining := false }

/-- A valid record whose host string is literally `P`; installed after
`c4RecP`, it overwrites the `_lookup["P"]` binding. -/
def c4RecQ : ShardType := { name := "Q", host := "P", maxSize := 0, draining := false }

/-- C4, counterexample: the claim says that for every ident X absent before
the reload but present in the authoritative source, `findWithRetry(X)`
returns X's record; it fails in two ways. (1) X = `"rs0/h1:1"` is the name
of a valid record in the source and is absent beforehand, yet after the
reload `find(X)` parses X as a replica-set string, looks up the (empty)
rs-table, misses again, and `findWithRetry` trips the fatal consistency
error instead of returning the record. (2) X = `"P"` names a record in the
source, but a later record's host alias `"P"` overwrites the binding, so
`findWithRetry("P")` returns Q's record, not P's. -/
theorem C4_counterexample :
    (c4Rec.validate = true ∧
      StaticShardInfo.empty.find c4Rec.name = Except.ok none ∧
      (StaticShardInfo.empty.reload (some [c4Rec])).2 = none ∧
      StaticShardInfo.empty.findWithRetry (some [c4Rec]) c4Rec.name =
        Except.error Err.notFoundFatal) ∧
    ((∀ sd ∈ [c4RecP, c4RecQ], sd.validate = true) ∧
      StaticShardInfo.empty.find c4RecP.name = Except.ok none ∧
      StaticShardInfo.empty.findWithRetry (some [c4RecP, c4RecQ]) c4RecP.name =
        Except.ok (recShard c4RecQ,
          (StaticShardInfo.empty.reload (some [c4RecP, c4RecQ])).1) ∧
      recShard c4RecQ ≠ recShard c4RecP) := by
  decide

/-- C4, amended: `findWithRetry` — a hit returns the record with no reload
(the cache state is returned unchanged and the authoritative source is
never consulted); a miss triggers exactly one reload, after which an ident
that is the name of a record in the authoritative list — provided the name
parses as a plain single-host identifier and the records install
pairwise-disjoint alias keys — is found and its record returned; an
identifier absent both before and after the reload fails fatally with the
consistency error, never an absent result. -/
theorem C4_findWithRetry :
    (∀ (st : StaticShardInfo) (fetched : Option (List ShardType))
        (ident : String) (s : Shard),
      st.find ident = Except.ok (some s) →
      st.findWithRetry fetched ident = Except.ok (s, st)) ∧
    (∀ (st st' : StaticShardInfo) (shards : List ShardType) (sd : ShardType),
      st.find sd.name = Except.ok none →
      st.reload (some shards) = (st', none) →
      pairwiseDisjB shards = true →
      (∀ x ∈ shards,
        parseConnString x.name = some (ConnectionString.master x.name)) →
      sd ∈ shards →
      st.findWithRetry (some shards) sd.name = Except.ok (recShard sd, st')) ∧
    (∀ (st st' : StaticShardInfo) (fetched : Option (List ShardType))
        (ident : String),
      st.find ident = Except.ok none →
      st.reload fetched = (st', none) →
      st'.find ident = Except.ok none →
      st.findWithRetry fetched ident = Except.error Err.notFoundFatal) := by
  refine ⟨?_, ?_, ?_⟩
  · intro st fetched ident s h
    simp only [StaticShardInfo.findWithRetry, h]
  · intro st st' shards sd hmiss hrel hdisj hmaster hmem
    have hfind2 : st'.find sd.name = Except.ok (some (recShard sd)) := by
      obtain ⟨hst, hval⟩ := reload_ok hrel
      rw [hst, find_eq_lookup (hmaster sd hmem),
        foldl_lookup_self _ _ hval hdisj hmem (List.mem_cons_self _ _)]
    simp only [StaticShardInfo.findWithRetry, hmiss, hrel, hfind2]
  · intro st st' fetched ident h1 hrel h3
    simp only [StaticShardInfo.findWithRetry, h1, hrel, h3]

/-- C4, witness: the three behaviours at the concrete fixture — a hit
without reload, a miss repaired by the reload, and a double miss raising
the fatal consistency error. -/
theorem C4_witness :
    wSt.findWithRetry none "A" = Except.ok (recShard wRecA, wSt) ∧
    StaticShardInfo.empty.findWithRetry (some wShards) "A" =
      Except.ok (recShard wRecA, wSt) ∧
    StaticShardInfo.empty.findWithRetry (some wShards) "zz:9" =
      Except.error Err.notFoundFatal :=
  ⟨C4_findWithRetry.1 wSt none "A" (recShard wRecA) (by decide),
   C4_findWithRetry.2.1 StaticShardInfo.empty wSt wShards wRecA
     (by decide) (by decide) (by decide) (by decide) (by decide),
   C4_findWithRetry.2.2 StaticShardInfo.empty wSt (some wShards) "zz:9"
     (by decide) (by decide) (by decide)⟩

/-- C5: the placement example — with exactly shards A (100MB) and B (50MB)
in the cache, `pick(EMPTY)` returns B; with current = A (100MB) and
candidates A (100MB) and B (150MB), `pick(A)` returns A, because the
running best is replaced only on a strictly smaller status. -/
theorem C5_placement_example :
    Shard.pick c5St none c5ProbeLow Shard.EMPTY = Except.ok c5ShardB ∧
    Shard.pick c5St none c5ProbeHigh c5ShardA = Except.ok c5ShardA := by
  decide

/-- C6: remove completeness — after `remove(name)`, no key of either table
maps to a record with that name, and every binding whose record has a
different name is still present unchanged. -/
theorem C6_remove_completeness (st : StaticShardInfo) (nm : String) :
    (∀ k v, mapFind (st.remove nm).lookup k = some v → v.name ≠ nm) ∧
    (∀ k v, mapFind (st.remove nm).rsLookup k = some v → v.name ≠ nm) ∧
    (∀ k v, mapFind st.lookup k = some v → v.name ≠ nm →
      mapFind (st.remove nm).lookup k = some v) ∧
    (∀ k v, mapFind st.rsLookup k = some v → v.name ≠ nm →
      mapFind (st.remove nm).rsLookup k = some v) := by
  refine ⟨?_, ?_, ?_, ?_⟩
  · intro k v h
    simp only [StaticShardInfo.remove] at h
    simpa using mapFind_filter_some _ _ _ _ h
  · intro k v h
    simp only [StaticShardInfo.remove] at h
    simpa using mapFind_filter_some _ _ _ _ h
  · intro k v h hv
    simp only [StaticShardInfo.remove]
    exact mapFind_filter_of_pos _ _ _ _ h (by simpa using hv)
  · intro k v h hv
    simp only [StaticShardInfo.remove]
    exact mapFind_filter_of_pos _ _ _ _ h (by simpa using hv)

/-- C6, witness: removing shard A from the fixture leaves no binding to a
record named A, while B's name binding survives intact. -/
theorem C6_witness :
    (recShard wRecB).name ≠ "A" ∧
    mapFind ((wSt.remove "A").lookup) "B" = some (recShard wRecB) :=
  ⟨(C6_remove_completeness wSt "A").1 "B" (recShard wRecB) (by decide),
   (C6_remove_completeness wSt "A").2.2.1 "B" (recShard wRecB)
     (by decide) (by decide)⟩

/-- C7: distinctness of `getAllShards` — the snapshot never contains the
`"config"` record and never two entries with the same name, however many
alias keys point at the same record. -/
theorem C7_getAllShards_distinct (st : StaticShardInfo) :
    (∀ s ∈ st.getAllShards, s.name ≠ "config") ∧
    (st.getAllShards.map Shard.name).Nodup := by
  obtain ⟨h1, h2⟩ := getAllShardsAux_spec st.lookup []
  exact ⟨fun s hs => (h1 s hs).1, h2⟩

/-- C7, witness: the distinctness facts instantiated on the two-record
fixture, whose primary table holds six alias keys for two records. -/
theorem C7_witness :
    (recShard wRecA).name ≠ "config" ∧
    (wSt.getAllShards.map Shard.name).Nodup :=
  ⟨(C7_getAllShards_distinct wSt).1 (recShard wRecA) (by decide),
   (C7_getAllShards_distinct wSt).2⟩

/-- C8: `lookupRSName` is a pure rs-table lookup — it returns the stored
record when the set name is bound and the EMPTY sentinel when it is not; in
the embedding it takes no authoritative source and returns no state, so it
can trigger no reload or other mutation. -/
theorem C8_lookupRSName_pure (st : StaticShardInfo) (nm : String) :
    (∀ s, mapFind st.rsLookup nm = some s → st.lookupRSName nm = s) ∧
    (mapFind st.rsLookup nm = none → st.lookupRSName nm = Shard.EMPTY) := by
  constructor
  · intro s h; simp [StaticShardInfo.lookupRSName, h]
  · intro h; simp [StaticShardInfo.lookupRSName, h]

/-- C8, witness: a hit on the fixture's replica set and a miss on an
unknown set name. -/
theorem C8_witness :
    wSt.lookupRSName "rs0" = recShard wRecB ∧
    wSt.lookupRSName "nope" = Shard.EMPTY :=
  ⟨(C8_lookupRSName_pure wSt "rs0").1 (recShard wRecB) (by decide),
   (C8_lookupRSName_pure wSt "nope").2 (by decide)⟩

/-- C9: `containsNode` — true when the host equals the record's own address;
otherwise, for a replica-set descriptor, exactly the membership
collaborator's answer; false (a soft failure, no error) when the monitor
cannot resolve the set; false for a non-replica-set record with a
non-matching host. -/
theorem C9_containsNode_cases (monitors : String → Option (String → Bool))
    (s : Shard) (node : String) :
    (s.addr = node → Shard.containsNode monitors s node = true) ∧
    (∀ sn srv f, s.addr ≠ node →
      s.cs = some (ConnectionString.rs sn srv) → monitors sn = some f →
      Shard.containsNode monitors s node = f node) ∧
    (∀ sn srv, s.addr ≠ node →
      s.cs = some (ConnectionString.rs sn srv) → monitors sn = none →
      Shard.containsNode monitors s node = false) ∧
    (s.addr ≠ node → (∀ sn srv, s.cs ≠ some (ConnectionString.rs sn srv)) →
      Shard.containsNode monitors s node = false) := by
  refine ⟨?_, ?_, ?_, ?_⟩
  · intro h; simp [Shard.containsNode, h]
  · intro sn srv f hne hcs hm
    simp [Shard.containsNode, hne, hcs, hm]
  · intro sn srv hne hcs hm
    simp [Shard.containsNode, hne, hcs, hm]
  · intro hne hcs
    cases hc : s.cs with
    | none => simp [Shard.containsNode, hne, hc]
    | some c =>
        cases c with
        | master h0 => simp [Shard.containsNode, hne, hc]
        | rs sn srv => exact absurd hc (hcs sn srv)

/-- C9, witness: the four behaviours at concrete inputs — own address,
resolved member, unresolved monitor, and a single-host record. -/
theorem C9_witness :
    Shard.containsNode c9Monitors (recShard wRecB) "rs0/h1:1,h2:2" = true ∧
    Shard.containsNode c9Monitors (recShard wRecB) "h1:1" = true ∧
    Shard.containsNode (fun _ => none) (recShard wRecB) "h9:9" = false ∧
    Shard.containsNode c9Monitors (recShard wRecA) "zz:9" = false := by
  refine ⟨?_, ?_, ?_, ?_⟩
  · exact (C9_containsNode_cases c9Monitors (recShard wRecB)
      "rs0/h1:1,h2:2").1 (by decide)
  · have h := (C9_containsNode_cases c9Monitors (recShard wRecB) "h1:1").2.1
      "rs0" ["h1:1", "h2:2"] (fun node => node = "h1:1")
      (by decide) (by decide) rfl
    exact h.trans (by decide)
  · exact (C9_containsNode_cases (fun _ => none) (recShard wRecB)
      "h9:9").2.2.1 "rs0" ["h1:1", "h2:2"] (by decide) (by decide) rfl
  · refine (C9_containsNode_cases c9Monitors (recShard wRecA)
      "zz:9").2.2.2 (by decide) ?_
    intro sn srv hcon
    rw [show (recShard wRecA).cs = some (ConnectionString.master "a:1")
      by decide] at hcon
    simp at hcon

/-- C10 (implicit): `remove` does not special-case the reserved config
entry — in a cache (with duplicate-free keys) holding the `"config"`
pseudo-entry whose record is the config record, `remove("config")` deletes
it, and afterwards no binding in either table maps to a record named
`"config"`: the entry `reload` deliberately preserves is not protected
from removal. -/
theorem C10_remove_config (st : StaticShardInfo) (c : Shard)
    (hnd : (st.lookup.map Prod.fst).Nodup)
    (hc : mapFind st.lookup "config" = some c) (hname : c.name = "config") :
    mapFind (st.remove "config").lookup "config" = none ∧
    (∀ k v, mapFind (st.remove "config").lookup k = some v →
      v.name ≠ "config") ∧
    (∀ k v, mapFind (st.remove "config").rsLookup k = some v →
      v.name ≠ "config") := by
  refine ⟨?_, ?_, ?_⟩
  · simp only [StaticShardInfo.remove]
    exact mapFind_filter_of_neg _ _ _ _ hnd hc (by simp [hname])
  · intro k v h
    simp only [StaticShardInfo.remove] at h
    simpa using mapFind_filter_some _ _ _ _ h
  · intro k v h
    simp only [StaticShardInfo.remove] at h
    simpa using mapFind_filter_some _ _ _ _ h

/-- C10, witness: removing `"config"` from a cache holding only the
reserved entry (and its address alias) deletes the `"config"` binding. -/
theorem C10_witness :
    mapFind ((c10St.remove "config").lookup) "config" = none :=
  (C10_remove_config c10St c10ConfigShard (by decide) (by decide)
    (by decide)).1

end MongoShard
